import Mathlib

/-!
Verification of `scripts/visualize_intermediate_steps.py` from markup2im.

The script is a thin inference driver for a conditional diffusion model:
it tokenizes formulas, collates them into padded batches, encodes them,
runs a denoising sampling loop, and writes gold / predicted / intermediate
image files.  We embed its pure logic shallowly: Python lists become Lean
lists, tensors become (nested) lists of integers, file writes become
explicit event lists, and the external denoiser / scheduler / encoder are
abstract function parameters.
-/

namespace Markup2im

/-! ### Collation (`collate_fn`, lines 212–230) -/

/-- A tokenized example as produced by the dataset transform:
`input_ids` and `attention_mask` come from the tokenizer. -/
structure TokenizedExample where
  input_ids : List Nat
  attention_mask : List Nat
  deriving DecidableEq

/-- One collated row: padded token ids and padded attention mask. -/
structure CollatedExample where
  input_ids : List Nat
  attention_mask : List Nat

/-- `max([len(example['input_ids']) for example in examples]) + 1`
(for a non-empty batch `foldl max 0` agrees with Python's `max`). -/
def maxLen (examples : List TokenizedExample) : Nat :=
  (examples.map (fun e => e.input_ids.length)).foldl max 0 + 1

/-- Body of the `for example in examples` loop of `collate_fn`:
tokens are right-padded with `eos_id` up to `max_len`, the mask gets one
forced `1` followed by zeros. -/
def collateOne (eos_id : Nat) (max_len : Nat) (e : TokenizedExample) :
    CollatedExample :=
  let orig_len := e.input_ids.length
  { input_ids := e.input_ids ++ List.replicate (max_len - orig_len) eos_id
    attention_mask :=
      e.attention_mask ++ [1] ++ List.replicate (max_len - orig_len - 1) 0 }

/-- `collate_fn` restricted to its tensor content: the padded rows, in
input order (the filenames / gold images are carried through unchanged). -/
def collate_fn (eos_id : Nat) (examples : List TokenizedExample) :
    List CollatedExample :=
  examples.map (collateOne eos_id (maxLen examples))

/-- The maximum original length in the batch. -/
def maxOrigLen (examples : List TokenizedExample) : Nat :=
  (examples.map (fun e => e.input_ids.length)).foldl max 0

lemma foldl_max_init_le (l : List Nat) (init : Nat) :
    init ≤ l.foldl max init := by
  induction l generalizing init with
  | nil => exact Nat.le_refl _
  | cons x xs ih =>
    exact Nat.le_trans (Nat.le_max_left init x) (ih (max init x))

lemma le_foldl_max (l : List Nat) (a : Nat) (h : a ∈ l) (init : Nat) :
    a ≤ l.foldl max init := by
  induction l generalizing init with
  | nil => cases h
  | cons x xs ih =>
    rcases List.mem_cons.mp h with rfl | hmem
    · exact Nat.le_trans (Nat.le_max_right init a) (foldl_max_init_le xs _)
    · exact ih hmem (max init x)

lemma origLen_le_maxOrigLen (examples : List TokenizedExample)
    (e : TokenizedExample) (he : e ∈ examples) :
    e.input_ids.length ≤ maxOrigLen examples := by
  unfold maxOrigLen
  exact le_foldl_max (examples.map (fun e => e.input_ids.length))
    e.input_ids.length (List.mem_map.mpr ⟨e, he, rfl⟩) 0

/-- C1: for a non-empty batch of tokenized examples, each collated
token-id row and attention-mask row has length `maxOrigLen + 1`; for each
example of original length `L`, token positions `L` onward hold the
end-of-sequence id, mask position `L` is `1`, every later mask position is
`0`, and positions before `L` keep the original token ids and mask values. -/
theorem collate_fn_shape_and_padding
    (eos_id : Nat) (examples : List TokenizedExample)
    (hne : examples ≠ [])
    (hmask : ∀ e ∈ examples, e.attention_mask.length = e.input_ids.length) :
    (collate_fn eos_id examples).length = examples.length ∧
    ∀ e ∈ examples,
      collateOne eos_id (maxLen examples) e ∈ collate_fn eos_id examples ∧
      ((collateOne eos_id (maxLen examples) e).input_ids.length
          = maxOrigLen examples + 1 ∧
        (collateOne eos_id (maxLen examples) e).attention_mask.length
          = maxOrigLen examples + 1 ∧
        (∀ j, e.input_ids.length ≤ j → j < maxOrigLen examples + 1 →
          (collateOne eos_id (maxLen examples) e).input_ids[j]? = some eos_id) ∧
        (collateOne eos_id (maxLen examples) e).attention_mask[e.input_ids.length]?
          = some 1 ∧
        (∀ j, e.input_ids.length < j → j < maxOrigLen examples + 1 →
          (collateOne eos_id (maxLen examples) e).attention_mask[j]? = some 0) ∧
        (∀ j, j < e.input_ids.length →
          (collateOne eos_id (maxLen examples) e).input_ids[j]?
              = e.input_ids[j]? ∧
            (collateOne eos_id (maxLen examples) e).attention_mask[j]?
              = e.attention_mask[j]?)) := by
  refine ⟨List.length_map _ _, ?_⟩
  intro e he
  have hL : e.input_ids.length ≤ maxOrigLen examples :=
    origLen_le_maxOrigLen examples e he
  have hml : maxLen examples = maxOrigLen examples + 1 := rfl
  have hmlen : e.attention_mask.length = e.input_ids.length := hmask e he
  set L := e.input_ids.length with hLdef
  set M := maxOrigLen examples with hMdef
  have hids :
      (collateOne eos_id (maxLen examples) e).input_ids
        = e.input_ids ++ List.replicate (M + 1 - L) eos_id := by
    simp [collateOne, hml]
  have hmsk :
      (collateOne eos_id (maxLen examples) e).attention_mask
        = e.attention_mask ++ (1 :: List.replicate (M + 1 - L - 1) 0) := by
    simp [collateOne, hml]
  refine ⟨List.mem_map.mpr ⟨e, he, rfl⟩, ?_, ?_, ?_, ?_, ?_, ?_⟩
  · rw [hids]; simp; omega
  · rw [hmsk]; simp [hmlen]; omega
  · intro j hj1 hj2
    rw [hids, List.getElem?_append_right hj1]
    exact List.getElem?_replicate_of_lt (by omega)
  · rw [hmsk, List.getElem?_append_right (le_of_eq hmlen), hmlen]
    simp
  · intro j hj1 hj2
    rw [hmsk, List.getElem?_append_right (by omega : e.attention_mask.length ≤ j)]
    rw [hmlen]
    have hjL : j - L = (j - L - 1) + 1 := by omega
    rw [hjL, List.getElem?_cons_succ]
    exact List.getElem?_replicate_of_lt (by omega)
  · intro j hj
    constructor
    · rw [hids, List.getElem?_append_left hj]
    · rw [hmsk, List.getElem?_append_left (by omega : j < e.attention_mask.length)]

/-- Witness for `collate_fn_shape_and_padding` at a concrete two-example
batch with `eos_id = 9`. -/
theorem collate_fn_shape_and_padding_witness :
    ([⟨[5, 6], [1, 1]⟩, ⟨[7], [1]⟩] : List TokenizedExample) ≠ [] ∧
    (∀ e ∈ ([⟨[5, 6], [1, 1]⟩, ⟨[7], [1]⟩] : List TokenizedExample),
      e.attention_mask.length = e.input_ids.length) ∧
    ((collate_fn 9 [⟨[5, 6], [1, 1]⟩, ⟨[7], [1]⟩]).length
        = ([⟨[5, 6], [1, 1]⟩, ⟨[7], [1]⟩] : List TokenizedExample).length ∧
      ∀ e ∈ ([⟨[5, 6], [1, 1]⟩, ⟨[7], [1]⟩] : List TokenizedExample),
        collateOne 9 (maxLen [⟨[5, 6], [1, 1]⟩, ⟨[7], [1]⟩]) e
            ∈ collate_fn 9 [⟨[5, 6], [1, 1]⟩, ⟨[7], [1]⟩] ∧
        ((collateOne 9 (maxLen [⟨[5, 6], [1, 1]⟩, ⟨[7], [1]⟩]) e).input_ids.length
            = maxOrigLen [⟨[5, 6], [1, 1]⟩, ⟨[7], [1]⟩] + 1 ∧
          (collateOne 9 (maxLen [⟨[5, 6], [1, 1]⟩, ⟨[7], [1]⟩]) e).attention_mask.length
            = maxOrigLen [⟨[5, 6], [1, 1]⟩, ⟨[7], [1]⟩] + 1 ∧
          (∀ j, e.input_ids.length ≤ j →
            j < maxOrigLen [⟨[5, 6], [1, 1]⟩, ⟨[7], [1]⟩] + 1 →
            (collateOne 9 (maxLen [⟨[5, 6], [1, 1]⟩, ⟨[7], [1]⟩]) e).input_ids[j]?
              = some 9) ∧
          (collateOne 9 (maxLen [⟨[5, 6], [1, 1]⟩, ⟨[7], [1]⟩]) e).attention_mask[e.input_ids.length]?
            = some 1 ∧
          (∀ j, e.input_ids.length < j →
            j < maxOrigLen [⟨[5, 6], [1, 1]⟩, ⟨[7], [1]⟩] + 1 →
            (collateOne 9 (maxLen [⟨[5, 6], [1, 1]⟩, ⟨[7], [1]⟩]) e).attention_mask[j]?
              = some 0) ∧
          (∀ j, j < e.input_ids.length →
            (collateOne 9 (maxLen [⟨[5, 6], [1, 1]⟩, ⟨[7], [1]⟩]) e).input_ids[j]?
                = e.input_ids[j]? ∧
              (collateOne 9 (maxLen [⟨[5, 6], [1, 1]⟩, ⟨[7], [1]⟩]) e).attention_mask[j]?
                = e.attention_mask[j]?))) :=
  ⟨by decide, by decide,
    collate_fn_shape_and_padding 9 [⟨[5, 6], [1, 1]⟩, ⟨[7], [1]⟩]
      (by decide) (by decide)⟩

/-! ### File writes performed by `evaluate` (lines 112–149) -/

/-- The two output subdirectories created by `evaluate`. -/
inductive OutDir
  | images_gold
  | images_pred
  deriving DecidableEq

/-- One image-file write: target directory and file name. -/
structure SaveEvent where
  dir : OutDir
  name : String
  deriving DecidableEq

/-- Python `f'{t:04d}'`: the decimal digits of `t`, left-padded with zeros
to width at least 4. -/
def pad4 (t : Nat) : String :=
  let s := Nat.repr t
  String.mk (List.replicate (4 - s.length) '0' ++ s.data)

/-- One batch's intermediate-save writes (`evaluate` lines 127–141): `t`
counts yielded sampling steps from 0; when `save_intermediate_every > 0`
and `t % save_intermediate_every == 0`, each example's predicted image is
written as `<filename>_<t:04d>.png` into `images_pred`. -/
def intermediateSaves (save_intermediate_every : Int) (numSteps : Nat)
    (filenames : List String) : List SaveEvent :=
  (List.range numSteps).flatMap fun t =>
    if 0 < save_intermediate_every ∧ (t : Int) % save_intermediate_every = 0 then
      filenames.map fun fn =>
        { dir := OutDir.images_pred, name := fn ++ "_" ++ pad4 t ++ ".png" }
    else []

/-- One batch's final writes (`evaluate` lines 143–145): for each example,
the gold image into `images_gold` and the predicted image into
`images_pred`, both named by the record's filename. -/
def finalSaves (filenames : List String) : List SaveEvent :=
  filenames.flatMap fun fn =>
    [{ dir := OutDir.images_gold, name := fn },
     { dir := OutDir.images_pred, name := fn }]

/-- The batch loop of `evaluate` (lines 117–147) abstracted to the file
writes it performs.  `step` enumerates batches from the data loader; each
batch is processed (intermediate saves during sampling, then final saves)
and the loop breaks when `step == num_batches - 1`.  Returns the write
events in order and the number of batches processed. -/
def evaluateFrom (save_intermediate_every : Int) (numSteps : Nat)
    (num_batches : Int) (step : Nat) :
    List (List String) → List SaveEvent × Nat
  | [] => ([], 0)
  | filenames :: rest =>
    let ev := intermediateSaves save_intermediate_every numSteps filenames ++
      finalSaves filenames
    if (step : Int) = num_batches - 1 then (ev, 1)
    else
      let r := evaluateFrom save_intermediate_every numSteps num_batches
        (step + 1) rest
      (ev ++ r.1, r.2 + 1)

/-- `evaluate(dataloader, ..., num_batches, save_intermediate_every)`,
abstracted to its write events and the number of processed batches. -/
def evaluate (save_intermediate_every : Int) (numSteps : Nat)
    (num_batches : Int) (batches : List (List String)) :
    List SaveEvent × Nat :=
  evaluateFrom save_intermediate_every numSteps num_batches 0 batches

lemma mem_intermediateSaves
    {k : Int} {numSteps : Nat} {filenames : List String} {ev : SaveEvent}
    (hev : ev ∈ intermediateSaves k numSteps filenames) :
    0 < k ∧ ev.dir = OutDir.images_pred ∧
    ∃ t fn, fn ∈ filenames ∧ t < numSteps ∧ (t : Int) % k = 0 ∧
      ev.name = fn ++ "_" ++ pad4 t ++ ".png" := by
  simp only [intermediateSaves, List.mem_flatMap] at hev
  obtain ⟨t, ht, hev⟩ := hev
  rw [List.mem_range] at ht
  by_cases hcond : 0 < k ∧ (t : Int) % k = 0
  · rw [if_pos hcond] at hev
    obtain ⟨fn, hfn, rfl⟩ := List.mem_map.mp hev
    exact ⟨hcond.1, rfl, t, fn, hfn, ht, hcond.2, rfl⟩
  · rw [if_neg hcond] at hev
    cases hev

lemma intermediateSaves_eq_nil {k : Int} (hk : k ≤ 0)
    (numSteps : Nat) (filenames : List String) :
    intermediateSaves k numSteps filenames = [] := by
  simp only [intermediateSaves]
  apply List.flatMap_eq_nil_iff.mpr
  intro t _
  rw [if_neg]
  rintro ⟨h1, -⟩
  omega

lemma evaluateFrom_events_eq (k : Int) (numSteps : Nat) (B : Int)
    (step : Nat) (bs : List (List String)) :
    (evaluateFrom k numSteps B step bs).1 =
      (bs.take (evaluateFrom k numSteps B step bs).2).flatMap
        (fun f => intermediateSaves k numSteps f ++ finalSaves f) := by
  induction bs generalizing step with
  | nil => simp [evaluateFrom]
  | cons f rest ih =>
    simp only [evaluateFrom]
    by_cases hb : (step : Int) = B - 1
    · rw [if_pos hb]
      simp
    · rw [if_neg hb]
      simp only [List.take_succ_cons, List.flatMap_cons]
      rw [ih (step + 1)]

lemma evaluateFrom_count (k : Int) (numSteps : Nat) (B : Int)
    (bs : List (List String)) (step : Nat) (hstep : (step : Int) < B) :
    (evaluateFrom k numSteps B step bs).2 = min (B - step).toNat bs.length := by
  induction bs generalizing step with
  | nil => simp [evaluateFrom]
  | cons f rest ih =>
    simp only [evaluateFrom]
    by_cases hb : (step : Int) = B - 1
    · rw [if_pos hb]
      have : (B - step).toNat = 1 := by omega
      simp [this]
    · rw [if_neg hb]
      have hstep' : ((step + 1 : Nat) : Int) < B := by push_cast; omega
      simp only [ih (step + 1) hstep', List.length_cons]
      have h1 : (B - (step : Int)).toNat = (B - ((step : Int) + 1)).toNat + 1 := by
        omega
      have h2 : (B - ((step + 1 : Nat) : Int)) = B - ((step : Int) + 1) := by
        push_cast; ring
      rw [h2, h1, Nat.succ_min_succ]

lemma count_finalSaves (filenames : List String) (fn : String) :
    ((finalSaves filenames).count ⟨OutDir.images_gold, fn⟩
        = filenames.count fn) ∧
    ((finalSaves filenames).count ⟨OutDir.images_pred, fn⟩
        = filenames.count fn) := by
  induction filenames with
  | nil => simp [finalSaves]
  | cons g rest ih =>
    have hcons : finalSaves (g :: rest) =
        ⟨OutDir.images_gold, g⟩ :: ⟨OutDir.images_pred, g⟩ ::
          finalSaves rest := by
      simp [finalSaves]
    rw [hcons]
    simp only [List.count_cons, ih.1, ih.2, beq_iff_eq, SaveEvent.mk.injEq]
    constructor <;> by_cases hg : g = fn <;> simp [hg]

/-- C2: with `--save_intermediate_every = k > 0`, every file write of the
evaluation loop is either a final gold/predicted save named by a record's
filename, or an intermediate predicted-image write performed at a sampling
step `t` that is a multiple of `k`, named `<filename>_<t:04d>.png`, into
the predicted-images directory. -/
theorem evaluate_intermediate_writes
    (k : Int) (numSteps : Nat) (B : Int) (batches : List (List String))
    (hk : 0 < k) (ev : SaveEvent)
    (hev : ev ∈ (evaluate k numSteps B batches).1) :
    (∃ filenames, filenames ∈ batches ∧ ev ∈ finalSaves filenames) ∨
    (ev.dir = OutDir.images_pred ∧
      ∃ t fn filenames, filenames ∈ batches ∧ fn ∈ filenames ∧
        t < numSteps ∧ (t : Int) % k = 0 ∧
        ev.name = fn ++ "_" ++ pad4 t ++ ".png") := by
  rw [evaluate, evaluateFrom_events_eq] at hev
  rw [List.mem_flatMap] at hev
  obtain ⟨filenames, hf, hev⟩ := hev
  have hfb : filenames ∈ batches := List.take_subset _ _ hf
  rw [List.mem_append] at hev
  rcases hev with hev | hev
  · obtain ⟨h1, h2, t, fn, hfn, ht, hmod, hname⟩ := mem_intermediateSaves hev
    exact Or.inr ⟨h2, t, fn, filenames, hfb, hfn, ht, hmod, hname⟩
  · exact Or.inl ⟨filenames, hfb, hev⟩

/-- Witness for `evaluate_intermediate_writes`: one batch `["a"]`, one
sampling step, `k = 2`; the intermediate write `a_0000.png` occurs at step
0 (a multiple of 2). -/
theorem evaluate_intermediate_writes_witness :
    (0 : Int) < 2 ∧
    (⟨OutDir.images_pred, "a_0000.png"⟩ : SaveEvent)
        ∈ (evaluate 2 1 1 [["a"]]).1 ∧
    ((∃ filenames, filenames ∈ [["a"]] ∧
        (⟨OutDir.images_pred, "a_0000.png"⟩ : SaveEvent)
          ∈ finalSaves filenames) ∨
      ((⟨OutDir.images_pred, "a_0000.png"⟩ : SaveEvent).dir
          = OutDir.images_pred ∧
        ∃ (t : Nat) (fn : String) (filenames : List String),
          filenames ∈ [["a"]] ∧ fn ∈ filenames ∧
          t < 1 ∧ (t : Int) % 2 = 0 ∧
          (⟨OutDir.images_pred, "a_0000.png"⟩ : SaveEvent).name
            = fn ++ "_" ++ pad4 t ++ ".png")) :=
  ⟨by decide, by decide,
    evaluate_intermediate_writes 2 1 1 [["a"]] (by decide) _ (by decide)⟩

/-- C3 counterexample: with `--num-batches = 0` and a dataset of two
batches, the loop processes both batches rather than `min(0, 2) = 0`
batches: the break condition `step == num_batches - 1` never fires. -/
theorem evaluate_num_batches_counterexample :
    (evaluate (-1) 0 0 [["a"], ["b"]]).2 = 2 ∧
    (evaluate (-1) 0 0 [["a"], ["b"]]).2 ≠ min ((0 : Int).toNat) 2 := by
  constructor <;> decide

/-- C3 amended: for every `--num-batches = B ≥ 1`, the evaluation loop
processes exactly `min(B, total number of batches)` batches and then
stops; in particular `B = 1` means only the first batch is processed.
(For `B ≤ 0` the break condition never fires and all batches are
processed.) -/
theorem evaluate_num_batches
    (k : Int) (numSteps : Nat) (B : Int) (batches : List (List String))
    (hB : 1 ≤ B) :
    (evaluate k numSteps B batches).2 = min B.toNat batches.length := by
  rw [evaluate, evaluateFrom_count k numSteps B batches 0 (by omega)]
  norm_num

/-- Witness for `evaluate_num_batches`: `B = 1` on a two-batch dataset
processes exactly one batch. -/
theorem evaluate_num_batches_witness :
    (1 : Int) ≤ 1 ∧
    (evaluate (-1) 0 1 [["a"], ["b"]]).2 = min ((1 : Int).toNat) 2 :=
  ⟨by decide, evaluate_num_batches (-1) 0 1 [["a"], ["b"]] (by decide)⟩

/-- C6: with `--save_intermediate_every ≤ 0` (e.g. `-1`), no intermediate
file is ever written: the write events of the run are exactly the final
saves of the processed batches, and within each batch every example
contributes exactly one gold write and one predicted write, both named by
the record's filename, into `images_gold` and `images_pred` respectively. -/
theorem evaluate_no_intermediate_saves
    (k : Int) (numSteps : Nat) (B : Int) (batches : List (List String))
    (hk : k ≤ 0) :
    (∀ filenames, intermediateSaves k numSteps filenames = []) ∧
    (evaluate k numSteps B batches).1 =
      (batches.take (evaluate k numSteps B batches).2).flatMap finalSaves ∧
    (∀ filenames fn,
      (finalSaves filenames).count ⟨OutDir.images_gold, fn⟩
          = filenames.count fn ∧
        (finalSaves filenames).count ⟨OutDir.images_pred, fn⟩
          = filenames.count fn) := by
  refine ⟨fun filenames => intermediateSaves_eq_nil hk numSteps filenames,
    ?_, fun filenames fn => count_finalSaves filenames fn⟩
  rw [evaluate, evaluateFrom_events_eq]
  apply List.flatMap_congr
  intro f _
  rw [intermediateSaves_eq_nil hk, List.nil_append]

/-- Witness for `evaluate_no_intermediate_saves` at `k = -1`, one batch
`["a"]`, `B = 1`. -/
theorem evaluate_no_intermediate_saves_witness :
    (-1 : Int) ≤ 0 ∧
    ((∀ filenames, intermediateSaves (-1) 5 filenames = []) ∧
      (evaluate (-1) 5 1 [["a"]]).1 =
        (([["a"]] : List (List String)).take
          (evaluate (-1) 5 1 [["a"]]).2).flatMap finalSaves ∧
      (∀ filenames fn,
        (finalSaves filenames).count ⟨OutDir.images_gold, fn⟩
            = filenames.count fn ∧
          (finalSaves filenames).count ⟨OutDir.images_pred, fn⟩
            = filenames.count fn)) :=
  ⟨by decide, evaluate_no_intermediate_saves (-1) 5 1 [["a"]] (by decide)⟩

/-! ### Checkpoint key remapping (`load_pipeline`, lines 91–97) -/

/-- Fuel-driven core of Python's `str.replace(pat, '')` for a non-empty
pattern: scan left to right; wherever `pat` matches, delete it and resume
scanning after the deleted occurrence; otherwise keep the character.  Any
`fuel ≥ s.length` makes the scan run to completion. -/
def pyDeleteAllFuel (pat : List Char) : Nat → List Char → List Char
  | 0, s => s
  | _ + 1, [] => []
  | fuel + 1, c :: rest =>
    if pat.isPrefixOf (c :: rest) then
      pyDeleteAllFuel pat fuel ((c :: rest).drop pat.length)
    else
      c :: pyDeleteAllFuel pat fuel rest

/-- Python `s.replace(pat, '')` for a non-empty pattern `pat`. -/
def pyDeleteAll (pat s : List Char) : List Char :=
  pyDeleteAllFuel pat s.length s

/-- Line 95, `k.replace('module.', '')`: the remap applied to every key of
the loaded state dictionary before `load_state_dict`. -/
def remapKey (k : List Char) : List Char :=
  pyDeleteAll "module.".toList k

/-- Lines 93–96: the keys of the rebuilt state dictionary. -/
def remapKeys (keys : List (List Char)) : List (List Char) :=
  keys.map remapKey

/-- `hasOccur pat s` holds when `pat` occurs as a contiguous substring of
`s`. -/
def hasOccur (pat : List Char) : List Char → Bool
  | [] => pat.isPrefixOf []
  | c :: rest => pat.isPrefixOf (c :: rest) || hasOccur pat rest

lemma pyDeleteAllFuel_of_no_occur (pat : List Char) :
    ∀ (fuel : Nat) (s : List Char), hasOccur pat s = false →
      pyDeleteAllFuel pat fuel s = s := by
  intro fuel
  induction fuel with
  | zero => intro s _; rfl
  | succ n ih =>
    intro s hs
    cases s with
    | nil => rfl
    | cons c rest =>
      simp only [hasOccur, Bool.or_eq_false_iff] at hs
      simp only [pyDeleteAllFuel]
      rw [if_neg (by simp [hs.1]), ih rest hs.2]

lemma isPrefixOf_append_self (pat k : List Char) :
    pat.isPrefixOf (pat ++ k) = true := by
  induction pat with
  | nil => simp
  | cons p ps ih => simpa [List.isPrefixOf] using ih

lemma pyDeleteAllFuel_strip_head (pat : List Char) (hp : pat ≠ [])
    (k : List Char) (fuel : Nat) :
    pyDeleteAllFuel pat (fuel + 1) (pat ++ k) = pyDeleteAllFuel pat fuel k := by
  cases pat with
  | nil => exact absurd rfl hp
  | cons p ps =>
    rw [List.cons_append]
    simp only [pyDeleteAllFuel]
    rw [if_pos (by simpa [List.cons_append] using isPrefixOf_append_self (p :: ps) k),
      ← List.cons_append, List.drop_left]

/-- C4 amended: each checkpoint key is remapped by deleting every
left-to-right non-overlapping occurrence of the substring `module.`
anywhere in the key, not only a leading prefix; a key containing no
occurrence is unchanged, and a key consisting of a leading `module.`
followed by an occurrence-free remainder is stripped to the remainder. -/
theorem load_pipeline_key_remap (k : List Char)
    (hno : hasOccur "module.".toList k = false) :
    remapKey k = k ∧ remapKey ("module.".toList ++ k) = k := by
  refine ⟨pyDeleteAllFuel_of_no_occur _ _ _ hno, ?_⟩
  unfold remapKey pyDeleteAll
  have h7 : ("module.".toList).length = 7 := by decide
  have hlen : ("module.".toList ++ k).length = (6 + k.length) + 1 := by
    rw [List.length_append, h7]; omega
  rw [hlen, pyDeleteAllFuel_strip_head "module.".toList (by decide) k (6 + k.length)]
  exact pyDeleteAllFuel_of_no_occur _ _ _ hno

/-- Witness for `load_pipeline_key_remap` at the key `weight`: it is
unchanged, and `module.weight` maps to `weight`. -/
theorem load_pipeline_key_remap_witness :
    hasOccur "module.".toList "weight".toList = false ∧
    (remapKey "weight".toList = "weight".toList ∧
      remapKey ("module.".toList ++ "weight".toList) = "weight".toList) :=
  ⟨by decide, load_pipeline_key_remap "weight".toList (by decide)⟩

/-- C4 counterexample: the key `a.module.b` does not start with `module.`,
yet the remap changes it to `a.b`: `str.replace` deletes every occurrence
of `module.`, not only a leading one, so "keys without that prefix are left
unchanged" fails. -/
theorem load_pipeline_key_remap_counterexample :
    ("module.".toList.isPrefixOf "a.module.b".toList) = false ∧
    remapKey "a.module.b".toList = "a.b".toList ∧
    remapKey "a.module.b".toList ≠ "a.module.b".toList :=
  ⟨by decide, by decide, by decide⟩

/-! ### Dataset filtering (`main`, lines 184–187) -/

/-- Python `str.lower` restricted to ASCII letters (the values compared
here — `--filter_filename` against `'none'` — are ASCII). -/
def pyLowerChar (c : Char) : Char :=
  if 'A' ≤ c ∧ c ≤ 'Z' then Char.ofNat (c.toNat + 32) else c

/-- Python `s.lower()` on an ASCII string. -/
def pyLower (s : List Char) : List Char := s.map pyLowerChar

/-- A dataset record, reduced to what the filter can observe: its
`filename` field, plus an opaque payload standing for the other fields. -/
structure Record where
  filename : List Char
  payload : Nat
  deriving DecidableEq

/-- Lines 184–187: `dataset.filter(lambda x: x['filename'] ==
args.filter_filename)` is applied unless the CLI value lowercases to
`none`. -/
def filterDataset (filter_filename : List Char) (ds : List Record) :
    List Record :=
  if pyLower filter_filename ≠ "none".toList then
    ds.filter (fun r => r.filename == filter_filename)
  else ds

/-- C5 counterexample: `--filter_filename = "NONE"` is not the string
`"None"`, yet the dataset is left unfiltered — the code compares the
lowercased value against `none` — so the record `a.png`, whose filename
does not equal `NONE`, survives, contradicting "filtered to exactly the
matching records whenever the value is not the string `None`". -/
theorem filter_filename_counterexample :
    ("NONE".toList ≠ "None".toList) ∧
    filterDataset "NONE".toList [⟨"a.png".toList, 0⟩]
        = [⟨"a.png".toList, 0⟩] ∧
    ¬ (∀ r ∈ filterDataset "NONE".toList [⟨"a.png".toList, 0⟩],
        r.filename = "NONE".toList) :=
  ⟨by decide, by decide, by decide⟩

/-- C5 amended: the dataset is filtered to exactly the records whose
`filename` equals the `--filter_filename` value when that value does not
equal `"None"` up to letter case (i.e. its lowercasing is not `none`);
when it equals `"None"` in any letter case, the dataset is left
unfiltered. -/
theorem filter_filename_spec (v : List Char) (ds : List Record) :
    (pyLower v ≠ "none".toList →
      ∀ r, r ∈ filterDataset v ds ↔ (r ∈ ds ∧ r.filename = v)) ∧
    (pyLower v = "none".toList → filterDataset v ds = ds) := by
  constructor
  · intro hv r
    rw [filterDataset, if_pos hv, List.mem_filter]
    simp only [beq_iff_eq]
  · intro hv
    rw [filterDataset, if_neg (by simp [hv])]

/-- Witness for `filter_filename_spec`: filtering with `a.png` keeps the
matching record, and the value `NoNe` leaves the dataset untouched. -/
theorem filter_filename_spec_witness :
    (pyLower "a.png".toList ≠ "none".toList ∧
      ((⟨"a.png".toList, 0⟩ : Record) ∈
          filterDataset "a.png".toList
            [⟨"a.png".toList, 0⟩, ⟨"b.png".toList, 1⟩] ↔
        ((⟨"a.png".toList, 0⟩ : Record) ∈
            [(⟨"a.png".toList, 0⟩ : Record), ⟨"b.png".toList, 1⟩] ∧
          (⟨"a.png".toList, 0⟩ : Record).filename = "a.png".toList))) ∧
    (pyLower "NoNe".toList = "none".toList ∧
      filterDataset "NoNe".toList [⟨"a.png".toList, 0⟩]
        = [⟨"a.png".toList, 0⟩]) :=
  ⟨⟨by decide,
      (filter_filename_spec "a.png".toList
        [⟨"a.png".toList, 0⟩, ⟨"b.png".toList, 1⟩]).1 (by decide) _⟩,
    ⟨by decide,
      (filter_filename_spec "NoNe".toList
        [⟨"a.png".toList, 0⟩]).2 (by decide)⟩⟩

/-! ### Color-mode validation (`main`, lines 167–178) -/

/-- Lines 167–173: the effective color mode is the CLI value when set,
else the dataset-inferred default. -/
def effectiveColorMode (cli : Option (List Char)) (inferred : List Char) :
    List Char :=
  match cli with
  | some c => c
  | none => inferred

/-- Lines 174–178: `assert args.color_mode in ['grayscale', 'rgb']`,
then 1 channel for `grayscale`, else 3.  The fatal assertion failure is
modelled as `Except.error`. -/
def setupColorChannels (cli : Option (List Char)) (inferred : List Char) :
    Except Unit Nat :=
  let color_mode := effectiveColorMode cli inferred
  if color_mode = "grayscale".toList ∨ color_mode = "rgb".toList then
    Except.ok (if color_mode = "grayscale".toList then 1 else 3)
  else
    Except.error ()

/-- C8: the setup aborts with the assertion failure iff the effective
color mode (CLI value, or inferred default when unset) is neither
`grayscale` nor `rgb`; when it is one of the two, the run proceeds with 1
color channel for `grayscale` and 3 for `rgb`. -/
theorem color_mode_assertion (cli : Option (List Char)) (inferred : List Char) :
    (setupColorChannels cli inferred = Except.error () ↔
      ¬ (effectiveColorMode cli inferred = "grayscale".toList ∨
          effectiveColorMode cli inferred = "rgb".toList)) ∧
    (effectiveColorMode cli inferred = "grayscale".toList →
      setupColorChannels cli inferred = Except.ok 1) ∧
    (effectiveColorMode cli inferred = "rgb".toList →
      setupColorChannels cli inferred = Except.ok 3) := by
  unfold setupColorChannels
  refine ⟨?_, ?_, ?_⟩
  · by_cases h : effectiveColorMode cli inferred = "grayscale".toList ∨
        effectiveColorMode cli inferred = "rgb".toList
    · rw [if_pos h]
      simp only [iff_iff_implies_and_implies]
      constructor
      · intro hcontra
        exact absurd hcontra (by simp)
      · intro hcontra
        exact absurd h hcontra
    · rw [if_neg h]
      simp only [iff_true_intro h, iff_true]
  · intro h
    rw [if_pos (Or.inl h), if_pos h]
  · intro h
    have hng : ¬ effectiveColorMode cli inferred = "grayscale".toList := by
      rw [h]; decide
    rw [if_pos (Or.inr h), if_neg hng]

/-- Witness for `color_mode_assertion` at the three concrete CLI values
`grayscale`, `rgb` and `cmyk`. -/
theorem color_mode_assertion_witness :
    setupColorChannels (some "grayscale".toList) "rgb".toList
        = Except.ok 1 ∧
    setupColorChannels (some "rgb".toList) "rgb".toList = Except.ok 3 ∧
    setupColorChannels (some "cmyk".toList) "rgb".toList
        = Except.error () :=
  ⟨(color_mode_assertion (some "grayscale".toList) "rgb".toList).2.1
      (by decide),
    (color_mode_assertion (some "rgb".toList) "rgb".toList).2.2 (by decide),
    (color_mode_assertion (some "cmyk".toList) "rgb".toList).1.mpr
      (by decide)⟩

/-! ### Conditioning encoder adapter (`forward_text`, lines 104–110) -/

/-- `attention_mask.unsqueeze(-1) * last_hidden_state` for one sequence:
each mask value multiplies the whole hidden vector at its position
(broadcast across the hidden dimension). -/
def maskHidden (mask : List Nat) (h : List (List Int)) : List (List Int) :=
  List.zipWith (fun m v => v.map (fun x => (m : Int) * x)) mask h

/-- `forward_text`: call the external encoder — an abstract function of
the inputs; the `torch.no_grad()` block and the absence of other side
effects are reflected by modelling the call as a pure function — and,
when a mask is given, multiply the last hidden state elementwise by the
mask broadcast across the hidden dimension. -/
def forward_text
    (text_encoder :
      List (List Nat) → Option (List (List Nat)) → List (List (List Int)))
    (input_ids : List (List Nat))
    (attention_mask : Option (List (List Nat))) : List (List (List Int)) :=
  let last_hidden_state := text_encoder input_ids attention_mask
  match attention_mask with
  | none => last_hidden_state
  | some mask => List.zipWith maskHidden mask last_hidden_state

/-- C7: with a non-`None` attention mask, `forward_text` returns the
encoder's last hidden state multiplied elementwise by the mask broadcast
across the hidden dimension; at any batch row `b` and sequence position
`s` the output vector is the mask value times the hidden vector, so at a
padding position (mask value 0) it is the zero vector.  (Being a pure
function of its inputs, the call tracks no gradients and has no other
side effect.) -/
theorem forward_text_masks_padding
    (text_encoder :
      List (List Nat) → Option (List (List Nat)) → List (List (List Int)))
    (input_ids : List (List Nat)) (mask : List (List Nat))
    (b s : Nat) (mrow : List Nat) (hrow : List (List Int))
    (mv : Nat) (vec : List Int)
    (hm : mask[b]? = some mrow)
    (hh : (text_encoder input_ids (some mask))[b]? = some hrow)
    (hmv : mrow[s]? = some mv)
    (hv : hrow[s]? = some vec) :
    forward_text text_encoder input_ids (some mask)
        = List.zipWith maskHidden mask (text_encoder input_ids (some mask)) ∧
    (forward_text text_encoder input_ids (some mask))[b]?
        = some (maskHidden mrow hrow) ∧
    (maskHidden mrow hrow)[s]?
        = some (vec.map (fun x => (mv : Int) * x)) ∧
    (mv = 0 → ∀ x ∈ vec.map (fun x => (mv : Int) * x), x = 0) := by
  refine ⟨rfl, ?_, ?_, ?_⟩
  · show (List.zipWith maskHidden mask (text_encoder input_ids (some mask)))[b]?
        = some (maskHidden mrow hrow)
    rw [List.getElem?_zipWith, hm, hh]
  · unfold maskHidden
    rw [List.getElem?_zipWith, hmv, hv]
  · intro h0 x hx
    obtain ⟨y, -, rfl⟩ := List.mem_map.mp hx
    rw [h0]
    simp

/-- Witness for `forward_text_masks_padding`: a constant two-position
encoder, mask `[1, 0]`; position 1 is padding and its output vector is
zero. -/
theorem forward_text_masks_padding_witness :
    ([[1, 0]] : List (List Nat))[0]? = some [1, 0] ∧
    ((fun (_ : List (List Nat)) (_ : Option (List (List Nat))) =>
        ([[[2, -3], [4, 5]]] : List (List (List Int))))
          [[7, 8]] (some [[1, 0]]))[0]? = some [[2, -3], [4, 5]] ∧
    ([1, 0] : List Nat)[1]? = some 0 ∧
    ([[2, -3], [4, 5]] : List (List Int))[1]? = some [4, 5] ∧
    (forward_text
        (fun (_ : List (List Nat)) (_ : Option (List (List Nat))) =>
          ([[[2, -3], [4, 5]]] : List (List (List Int))))
        [[7, 8]] (some [[1, 0]])
        = List.zipWith maskHidden [[1, 0]]
          ((fun (_ : List (List Nat)) (_ : Option (List (List Nat))) =>
            ([[[2, -3], [4, 5]]] : List (List (List Int))))
            [[7, 8]] (some [[1, 0]])) ∧
      (forward_text
        (fun (_ : List (List Nat)) (_ : Option (List (List Nat))) =>
          ([[[2, -3], [4, 5]]] : List (List (List Int))))
        [[7, 8]] (some [[1, 0]]))[0]?
          = some (maskHidden [1, 0] [[2, -3], [4, 5]]) ∧
      (maskHidden [1, 0] [[2, -3], [4, 5]])[1]?
          = some (([4, 5] : List Int).map (fun x => ((0 : Nat) : Int) * x)) ∧
      ((0 : Nat) = 0 →
        ∀ x ∈ (([4, 5] : List Int).map (fun x => ((0 : Nat) : Int) * x)),
          x = 0)) :=
  ⟨by decide, by decide, by decide, by decide,
    forward_text_masks_padding
      (fun _ _ => [[[2, -3], [4, 5]]]) [[7, 8]] [[1, 0]] 0 1
      [1, 0] [[2, -3], [4, 5]] 0 [4, 5]
      (by decide) (by decide) (by decide) (by decide)⟩

/-! ### Sampling loop driver (`pipeline.run_clean`, used at lines 129–135) -/

/-- Modelled from the spec: one denoising step of the sampling loop.  The
source of `run_clean` is not part of this repository's `src/` (it lives in
the pipeline library the script drives); per the spec (§4.3) each step
asks the denoiser for a prediction conditioned on the current noisy batch,
the timestep and the conditioning tensor/mask, then asks the schedule for
the next, less noisy batch.  `swap_step` triggers an alternate behavior at
that timestep whose semantics the spec leaves unspecified (`swapEffect` is
an abstract parameter); `swap_step = -1` disables swapping. -/
def runCleanStep {α β γ δ : Type}
    (predict : α → Nat → γ → δ → β) (stepFn : β → Nat → α → α)
    (swapEffect : α → Nat → α) (swap_step : Int)
    (cond : γ) (mask : δ) (x : α) (t : Nat) : α :=
  let x' := if (t : Int) = swap_step then swapEffect x t else x
  stepFn (predict x' t cond mask) t x'

/-- Modelled from the spec: the timestep recursion of `run_clean`, from
timestep `t - 1` down to `0`, yielding each `(timestep, image_batch)`
pair. -/
def runCleanGo {α β γ δ : Type}
    (predict : α → Nat → γ → δ → β) (stepFn : β → Nat → α → α)
    (swapEffect : α → Nat → α) (swap_step : Int)
    (cond : γ) (mask : δ) : Nat → α → List (Nat × α)
  | 0, _ => []
  | t + 1, x =>
    (t, runCleanStep predict stepFn swapEffect swap_step cond mask x t) ::
      runCleanGo predict stepFn swapEffect swap_step cond mask t
        (runCleanStep predict stepFn swapEffect swap_step cond mask x t)

/-- Modelled from the spec: `pipeline.run_clean` — initialize a noise
batch from the seeded generator (`noiseInit`, abstract but a pure function
of the seed), then iterate the denoising step from the schedule's start
down to timestep 0, yielding every `(timestep, image_batch)` pair; the
final yielded batch is the fully denoised image batch. -/
def run_clean {α β γ δ : Type}
    (numTimesteps : Nat) (noiseInit : Nat → α)
    (predict : α → Nat → γ → δ → β) (stepFn : β → Nat → α → α)
    (swapEffect : α → Nat → α) (swap_step : Int)
    (seed : Nat) (encoder_hidden_states : γ) (attention_mask : δ) :
    List (Nat × α) :=
  runCleanGo predict stepFn swapEffect swap_step encoder_hidden_states
    attention_mask numTimesteps (noiseInit seed)

lemma runCleanStep_swap_disabled {α β γ δ : Type}
    (predict : α → Nat → γ → δ → β) (stepFn : β → Nat → α → α)
    (swapEffect : α → Nat → α) (cond : γ) (mask : δ) (x : α) (t : Nat) :
    runCleanStep predict stepFn swapEffect (-1) cond mask x t
      = stepFn (predict x t cond mask) t x := by
  unfold runCleanStep
  rw [if_neg (by omega : ¬((t : Int) = -1))]

lemma runCleanGo_swap_disabled {α β γ δ : Type}
    (predict : α → Nat → γ → δ → β) (stepFn : β → Nat → α → α)
    (swapEffect₁ swapEffect₂ : α → Nat → α) (cond : γ) (mask : δ) :
    ∀ (t : Nat) (x : α),
      runCleanGo predict stepFn swapEffect₁ (-1) cond mask t x
        = runCleanGo predict stepFn swapEffect₂ (-1) cond mask t x := by
  intro t
  induction t with
  | zero => intro x; rfl
  | succ n ih =>
    intro x
    simp only [runCleanGo, runCleanStep_swap_disabled]
    rw [ih]

/-- C9: with `swap_step = -1` the swap branch is unreachable, so the whole
trajectory of the sampling loop — and in particular the final image batch —
is determined by the generator seed, the conditioning tensor, the
attention mask and the schedule alone (the denoiser being a deterministic
function): two runs with the same seed and inputs agree, even under
different (unspecified) swap behaviors. -/
theorem run_clean_deterministic {α β γ δ : Type}
    (numTimesteps : Nat) (noiseInit : Nat → α)
    (predict : α → Nat → γ → δ → β) (stepFn : β → Nat → α → α)
    (swapEffect₁ swapEffect₂ : α → Nat → α)
    (seed : Nat) (cond : γ) (mask : δ) :
    run_clean numTimesteps noiseInit predict stepFn swapEffect₁ (-1)
        seed cond mask
      = run_clean numTimesteps noiseInit predict stepFn swapEffect₂ (-1)
        seed cond mask ∧
    (run_clean numTimesteps noiseInit predict stepFn swapEffect₁ (-1)
        seed cond mask).getLast?
      = (run_clean numTimesteps noiseInit predict stepFn swapEffect₂ (-1)
        seed cond mask).getLast? := by
  have h := runCleanGo_swap_disabled predict stepFn swapEffect₁ swapEffect₂
    cond mask numTimesteps (noiseInit seed)
  exact ⟨h, by rw [run_clean, run_clean, h]⟩

/-! ### numpy global random state at data-loader construction
(`main`, lines 232–236) -/

/-- The numpy global random state, abstracted to the seed it was last
seeded with. -/
structure NumpyState where
  lastSeed : Nat
  deriving DecidableEq

/-- `np.random.seed(n)`: reseeds the global state and returns Python
`None` (modelled as `Option.none`). -/
def npRandomSeed (n : Nat) (s : NumpyState) : Option Unit × NumpyState :=
  (none, { lastSeed := n })

/-- The one `DataLoader` keyword argument this analysis tracks. -/
structure LoaderConfig where
  worker_init_fn : Option Unit
  deriving DecidableEq

/-- Lines 232–236 of `main`, restricted to the numpy global state:
`np.random.seed(args.seed2)` runs first; then, at the `DataLoader`
construction, the argument expression `np.random.seed(0)` is evaluated at
the call site — reseeding the global state with 0 — and its `None` result
is what is passed as `worker_init_fn`. -/
def mainSeedAndBuildLoader (seed2 : Nat) (s0 : NumpyState) :
    LoaderConfig × NumpyState :=
  let s1 := (npRandomSeed seed2 s0).2
  let r := npRandomSeed 0 s1
  ({ worker_init_fn := r.1 }, r.2)

/-- C10: constructing the data loader evaluates `np.random.seed(0)` at the
call site and passes its `None` result as `worker_init_fn`; after
construction the numpy global state is the state seeded with 0 for every
`--seed2` — the earlier `np.random.seed(args.seed2)` has no effect on it —
and two runs differing only in `--seed2` end with identical numpy state. -/
theorem dataloader_numpy_seed (seed2 seed2' : Nat) (s0 s0' : NumpyState) :
    (mainSeedAndBuildLoader seed2 s0).1.worker_init_fn = none ∧
    (mainSeedAndBuildLoader seed2 s0).2 = { lastSeed := 0 } ∧
    (mainSeedAndBuildLoader seed2 s0).2 = (mainSeedAndBuildLoader seed2' s0').2 :=
  ⟨rfl, rfl, rfl⟩

end Markup2im
